import Mathlib

/-!
Verification of the points-aggregation and optimal-lineup engine of the
`vdl` repository (`calculate_points.py`): the gameweek record builder
(`calculate_gw_stats`), the optimal lineup solver
(`calculate_optimal_points`) and the league standings aggregator
(`calculate_league_positions`), shallowly embedded in Lean.

Machine integers do not overflow here (Python ints are unbounded), so
player scores are `Int` and identifiers/slots are `Nat`.  File I/O is
replaced by explicit parameters: the bootstrap player directory and the
gameweek score cache become functions, the previous gameweek's on-disk
record becomes an `Option Record` (a missing file at `gw > 1` raises an
uncaught `FileNotFoundError` in the source, which we render as `none`).
-/

namespace VDL

/-- One entry of `bootstrap-static.json`'s `elements`: display names and
the eligibility category (`element_type`, 1=GK, 2=DEF, 3=MID, 4=FWD). -/
structure PlayerInfo where
  first_name : String
  second_name : String
  element_type : Nat
deriving DecidableEq, Repr

/-- One roster slot of `team_data['picks']`: a player id (`element`) and a
squad position 1–15 (`position`). -/
structure Pick where
  element : Nat
  position : Nat
deriving DecidableEq, Repr

/-- A pick enriched by the builder loop: names, true position (category),
this-gameweek points and the benched flag. -/
structure PlayerStat where
  element : Nat
  position : Nat
  first_name : String
  second_name : String
  true_position : Nat
  points : Int
  benched : Bool
deriving DecidableEq, Repr

/-- A value of the `total_player_stats` mapping: per-player cumulative
starting and benched points. -/
structure PlayerTotals where
  first_name : String
  second_name : String
  total_points : Int
  total_benched_points : Int
deriving DecidableEq, Repr

/-- The Gameweek Record written to `gw_{gw}_adjusted.json` (`output` in
`calculate_gw_stats`).  `total_player_stats` is a Python dict keyed by the
stringified player id; we model it as an association list that preserves
insertion order, matching dict semantics. -/
structure Record where
  team_id : Nat
  team_name : String
  team_captain : String
  gameweek : Nat
  team_formation : List Nat
  max_formation : List Nat
  min_formation : List Nat
  week_points : Int
  benched_points : Int
  optimal_points : Int
  league_rank : Nat
  optimal_league_rank : Nat
  total_points : Int
  total_optimal_points : Int
  player_stats : List PlayerStat
  total_player_stats : List (Nat × PlayerTotals)
deriving DecidableEq, Repr

/-! ### Python dict operations on `total_player_stats` -/

/-- Dict lookup (`str(element_id) in output['total_player_stats']` /
subscript read). -/
def lookupStats : List (Nat × PlayerTotals) → Nat → Option PlayerTotals
  | [], _ => none
  | (k, v) :: rest, e => if k = e then some v else lookupStats rest e

/-- Dict update at an existing key (in-place mutation of the entry). -/
def updateEntry (f : PlayerTotals → PlayerTotals) (e : Nat) :
    List (Nat × PlayerTotals) → List (Nat × PlayerTotals)
  | [] => []
  | (k, v) :: rest =>
      if k = e then (k, f v) :: rest else (k, v) :: updateEntry f e rest

/-- Starter branch for `total_player_stats` (lines 79–87): increment the
entry's `total_points` if present, else insert a fresh entry (Python dicts
append new keys at the end). -/
def addStarterPoints (stats : List (Nat × PlayerTotals)) (e : Nat)
    (info : PlayerInfo) (pts : Int) : List (Nat × PlayerTotals) :=
  match lookupStats stats e with
  | some _ =>
      updateEntry (fun t => { t with total_points := t.total_points + pts }) e stats
  | none =>
      stats ++ [(e, { first_name := info.first_name,
                      second_name := info.second_name,
                      total_points := pts, total_benched_points := 0 })]

/-- Bench branch for `total_player_stats` (lines 93–101). -/
def addBenchPoints (stats : List (Nat × PlayerTotals)) (e : Nat)
    (info : PlayerInfo) (pts : Int) : List (Nat × PlayerTotals) :=
  match lookupStats stats e with
  | some _ =>
      updateEntry
        (fun t => { t with total_benched_points := t.total_benched_points + pts }) e stats
  | none =>
      stats ++ [(e, { first_name := info.first_name,
                      second_name := info.second_name,
                      total_points := 0, total_benched_points := pts })]

/-- `output['team_formation'][i] += 1`: increment the `i`-th entry of the
formation counter list. -/
def incrAt : List Nat → Nat → List Nat
  | [], _ => []
  | x :: xs, 0 => (x + 1) :: xs
  | x :: xs, n + 1 => x :: incrAt xs n

/-! ### A stable sort

Python's `list.sort` / `sorted` is a stable sort; which stable sorting
algorithm is used is unobservable, so we model it by a structurally
recursive stable insertion sort (kernel-computable, unlike
`List.mergeSort`). -/

/-- Insert `x` before the first element `y` with `le x y` (stable: an
element inserted earlier stays before later equal elements). -/
def insertSorted (le : α → α → Bool) (x : α) : List α → List α
  | [] => [x]
  | y :: ys => if le x y then x :: y :: ys else y :: insertSorted le x ys

/-- Stable insertion sort by the Boolean comparison `le`. -/
def sortBy (le : α → α → Bool) : List α → List α
  | [] => []
  | x :: xs => insertSorted le x (sortBy le xs)


/-! ### The optimal lineup solver (`calculate_optimal_points`) -/

/-- Bucket `pos` (0=GK … 3=FWD) of the squad, sorted by points descending
(lines 164–176: players are appended to `squad[true_position - 1]` in
input order, then each bucket is stably sorted by `points` descending;
categories are 1–4 in the data model). -/
def squadBucket (ps : List PlayerStat) (pos : Nat) : List PlayerStat :=
  sortBy (fun a b => b.points ≤ a.points)
    (ps.filter (fun p => p.true_position = pos + 1))

/-- `sum(player['points'] for player in squad[pos][:k])`: the sum of the
top `k` scores of bucket `pos` (all of them when the bucket is shorter). -/
def topSum (ps : List PlayerStat) (pos k : Nat) : Int :=
  (((squadBucket ps pos).take k).map (fun p => p.points)).sum

/-- The inner loop of lines 196–197: a formation's points total. -/
def formationPoints (ps : List PlayerStat) (f : List Nat) : Int :=
  topSum ps 0 (f.getD 0 0) + topSum ps 1 (f.getD 1 0) +
    topSum ps 2 (f.getD 2 0) + topSum ps 3 (f.getD 3 0)

/-- The eight legal formations of lines 180–189 (`[GK, DEF, MID, FWD]`). -/
def formations : List (List Nat) :=
  [[1, 3, 5, 2], [1, 3, 4, 3], [1, 4, 5, 1], [1, 4, 4, 2],
   [1, 4, 3, 3], [1, 5, 4, 1], [1, 5, 3, 2], [1, 5, 2, 3]]

/-- `calculate_optimal_points` (lines 158–202): the running maximum starts
at 0 and is replaced whenever a formation's total strictly exceeds it
(the source's `valid_formation` flag is always `True` and is dropped). -/
def calculate_optimal_points (player_stats : List PlayerStat) : Int :=
  formations.foldl
    (fun optimal_points f =>
      let formation_points := formationPoints player_stats f
      if optimal_points < formation_points then formation_points else optimal_points)
    0

/-- The spec's description of the solver result (§4.2): the maximum, over
the eight formations, of the sum over the four category buckets of the
top-`k` scores, with no clamping.  (The `[]` branch is unreachable:
`formations` has eight elements.) -/
def bestFormationTotal (ps : List PlayerStat) : Int :=
  match formations.map (formationPoints ps) with
  | [] => 0
  | t :: ts => ts.foldl max t

/-- All players carry a recognized eligibility category (the data model's
`element_type ∈ {1,2,3,4}`; outside it the Python solver's
`squad[true_position - 1]` either wraps to the last bucket or raises). -/
def validCats (ps : List PlayerStat) : Prop :=
  ∀ p ∈ ps, 1 ≤ p.true_position ∧ p.true_position ≤ 4

/-! ### The gameweek record builder (`calculate_gw_stats`) -/

/-- The fresh `output` structure of lines 33–50, seeded with the previous
gameweek's cumulative totals. -/
def initRecord (team_id : Nat) (entries : Nat → String × String) (gw : Nat)
    (prev_total_points prev_optimal_points : Int)
    (prev_total_player_stats : List (Nat × PlayerTotals)) : Record :=
  { team_id := team_id
    team_name := (entries team_id).1
    team_captain := (entries team_id).2
    gameweek := gw
    team_formation := [0, 0, 0, 0]
    max_formation := [1, 5, 5, 3]
    min_formation := [1, 3, 2, 1]
    week_points := 0
    benched_points := 0
    optimal_points := 0
    league_rank := 0
    optimal_league_rank := 0
    total_points := prev_total_points
    total_optimal_points := prev_optimal_points
    player_stats := []
    total_player_stats := prev_total_player_stats }

/-- Lines 54–69: the pick enriched with names, category and points (the
mutated `player` dict appended to `output['player_stats']`). -/
def enrichPick (gwCache : Nat → Option Int) (bootstrap : Nat → PlayerInfo)
    (p : Pick) : PlayerStat :=
  { element := p.element
    position := p.position
    first_name := (bootstrap p.element).first_name
    second_name := (bootstrap p.element).second_name
    true_position := (bootstrap p.element).element_type
    points := (gwCache p.element).getD 0
    benched := decide (¬ p.position ≤ 11) }

/-- One iteration of the `for player in team_data['picks']` loop
(lines 53–103).  `gwCache` is the gameweek score index
(`gw_data_cache[gw]['elements']`, `none` meaning the player is absent and
scores 0); `bootstrap` is the player directory. -/
def processPick (gwCache : Nat → Option Int) (bootstrap : Nat → PlayerInfo)
    (output : Record) (p : Pick) : Record :=
  let player_points : Int := (gwCache p.element).getD 0
  let info := bootstrap p.element
  let ps : PlayerStat := enrichPick gwCache bootstrap p
  if p.position ≤ 11 then
    { output with
      team_formation := incrAt output.team_formation (info.element_type - 1)
      week_points := output.week_points + player_points
      total_points := output.total_points + player_points
      total_player_stats :=
        addStarterPoints output.total_player_stats p.element info player_points
      player_stats := output.player_stats ++ [ps] }
  else
    { output with
      benched_points := output.benched_points + player_points
      total_player_stats :=
        addBenchPoints output.total_player_stats p.element info player_points
      player_stats := output.player_stats ++ [ps] }

/-- `sort_total_player_stats` (lines 117–125): stably re-sort the mapping
by cumulative `total_points` descending. -/
def sort_total_player_stats (stats : List (Nat × PlayerTotals)) :
    List (Nat × PlayerTotals) :=
  sortBy (fun a b => b.2.total_points ≤ a.2.total_points) stats

/-- Lines 33–107 of `calculate_gw_stats` after the previous totals are in
hand: build the record, sort the per-player totals, then run the solver
and add its result to the cumulative optimal total. -/
def buildRecord (team_id : Nat) (entries : Nat → String × String) (gw : Nat)
    (picks : List Pick) (bootstrap : Nat → PlayerInfo)
    (gwCache : Nat → Option Int)
    (prev_total_points prev_optimal_points : Int)
    (prev_total_player_stats : List (Nat × PlayerTotals)) : Record :=
  let out0 := initRecord team_id entries gw prev_total_points
    prev_optimal_points prev_total_player_stats
  let out1 := picks.foldl (processPick gwCache bootstrap) out0
  let out2 := { out1 with
    total_player_stats := sort_total_player_stats out1.total_player_stats }
  let opt := calculate_optimal_points out2.player_stats
  { out2 with
    optimal_points := opt
    total_optimal_points := out2.total_optimal_points + opt }

/-- `calculate_gw_stats` (lines 5–115).  For `gw > 1` the previous
gameweek's adjusted record is read from disk (lines 19–24); a missing file
raises an uncaught `FileNotFoundError`, so no record is produced or
written — rendered as `none`.  For `gw = 1` the priors are zero/empty. -/
def calculate_gw_stats (team_id gw : Nat) (entries : Nat → String × String)
    (picks : List Pick) (bootstrap : Nat → PlayerInfo)
    (gwCache : Nat → Option Int) (prev : Option Record) : Option Record :=
  if gw > 1 then
    match prev with
    | none => none
    | some p =>
        some (buildRecord team_id entries gw picks bootstrap gwCache
          p.total_points p.total_optimal_points p.total_player_stats)
  else
    some (buildRecord team_id entries gw picks bootstrap gwCache 0 0 [])

/-! ### The league standings aggregator (`calculate_league_positions`) -/

/-- Lines 297/301–302: sort the (team, total points) pairs by points
descending (Python's `sorted` with `reverse=True` is stable, like
`mergeSort`) and pair each with its 1-based position (`enumerate(...,
start=1)`). -/
def rank_assignment (teams : List (Nat × Int)) : List ((Nat × Int) × Nat) :=
  (sortBy (fun a b => b.2 ≤ a.2) teams).zip (List.range' 1 teams.length)

/-- `calculate_league_positions` (lines 274–314) restricted to the rank
computation: from each team's cumulative points (the `team_ids_points`
dict, insertion-ordered, keyed by team id) to the `league_rank` assigned
to each team.  The same code path computes `optimal_league_rank` from
`team_ids_optimal_points`. -/
def calculate_league_positions (teams : List (Nat × Int)) : List (Nat × Nat) :=
  (rank_assignment teams).map (fun x => (x.1.1, x.2))

/-! ### Derived notions used to state the properties -/

/-- The score a pick contributes (0 when absent from the score index). -/
def pickScore (gwCache : Nat → Option Int) (p : Pick) : Int :=
  (gwCache p.element).getD 0

/-- Sum of the gameweek scores of a list of picks. -/
def sumScores (gwCache : Nat → Option Int) (l : List Pick) : Int :=
  (l.map (pickScore gwCache)).sum

/-- The starters of a roster: picks in slots 1–11. -/
def starters (picks : List Pick) : List Pick :=
  picks.filter (fun p => p.position ≤ 11)

/-- The bench of a roster: picks in slots 12 and beyond. -/
def bench (picks : List Pick)  : List Pick :=
  picks.filter (fun p => ¬ p.position ≤ 11)

/-- Number of starters whose directory category is `c`. -/
def countStarters (picks : List Pick) (bootstrap : Nat → PlayerInfo)
    (c : Nat) : Nat :=
  ((starters picks).filter (fun p => (bootstrap p.element).element_type = c)).length

/-- The category counts of the roster's actual starters, `[GK, DEF, MID,
FWD]`. -/
def starterFormation (picks : List Pick) (bootstrap : Nat → PlayerInfo) :
    List Nat :=
  [countStarters picks bootstrap 1, countStarters picks bootstrap 2,
   countStarters picks bootstrap 3, countStarters picks bootstrap 4]

/-- Categories of all roster picks are recognized (1–4). -/
def validPickCats (picks : List Pick) (b : Nat → PlayerInfo) : Prop :=
  ∀ p ∈ picks, 1 ≤ (b p.element).element_type ∧ (b p.element).element_type ≤ 4

/-! ### Concrete fixtures used by witnesses and counterexamples -/

/-- League-details lookup used by the concrete examples. -/
def exEntries : Nat → String × String := fun _ => ("Team Name", "Team Captain")

/-- A bootstrap directory giving elements 1–2 category GK, 3–7 DEF, 8–12
MID, 13–15 FWD. -/
def exInfo : Nat → PlayerInfo := fun e =>
  { first_name := "F", second_name := "S",
    element_type := if e ≤ 2 then 1 else if e ≤ 7 then 2 else
      if e ≤ 12 then 3 else 4 }

/-- A score index where player 9 is absent (scores 0) and player `e`
scores `e`. -/
def exScores : Nat → Option Int := fun e => if e = 9 then none else some (e : Int)

/-- A 15-slot roster whose starters form the legal 4-4-2. -/
def exPicks : List Pick :=
  [⟨1, 1⟩, ⟨3, 2⟩, ⟨4, 3⟩, ⟨5, 4⟩, ⟨6, 5⟩, ⟨8, 6⟩, ⟨9, 7⟩, ⟨10, 8⟩,
   ⟨11, 9⟩, ⟨13, 10⟩, ⟨14, 11⟩, ⟨2, 12⟩, ⟨7, 13⟩, ⟨12, 14⟩, ⟨15, 15⟩]

/-- The gameweek-1 record for `exPicks`. -/
def exRecord1 : Record := buildRecord 1 exEntries 1 exPicks exInfo exScores 0 0 []

/-- The gameweek-2 record seeded from `exRecord1`. -/
def exRecord2 : Record :=
  buildRecord 1 exEntries 2 exPicks exInfo exScores exRecord1.total_points
    exRecord1.total_optimal_points exRecord1.total_player_stats

/-- A directory that categorizes every player as a midfielder. -/
def exMidInfo : Nat → PlayerInfo := fun _ => ⟨"M", "M", 3⟩

/-- Every player scores 10. -/
def exMidScores : Nat → Option Int := fun _ => some 10

/-- A 15-slot roster (slot `i` holds player `i`): with `exMidInfo` its
eleven starters are all midfielders — an illegal actual formation the
builder nevertheless accepts. -/
def exMidPicks : List Pick :=
  [⟨1, 1⟩, ⟨2, 2⟩, ⟨3, 3⟩, ⟨4, 4⟩, ⟨5, 5⟩, ⟨6, 6⟩, ⟨7, 7⟩, ⟨8, 8⟩,
   ⟨9, 9⟩, ⟨10, 10⟩, ⟨11, 11⟩, ⟨12, 12⟩, ⟨13, 13⟩, ⟨14, 14⟩, ⟨15, 15⟩]

/-- The record the builder produces for the all-midfield roster. -/
def exMidRecord : Record :=
  buildRecord 1 exEntries 1 exMidPicks exMidInfo exMidScores 0 0 []

/-- Directory for the two-gameweek accumulation scenario. -/
def exScnInfo : Nat → PlayerInfo := fun _ => ⟨"F", "S", 3⟩

/-- Gameweek-1 scores: player 7 scores 5. -/
def exScnScores1 : Nat → Option Int := fun e => if e = 7 then some 5 else some 2

/-- Gameweek-2 scores: player 7 scores 3. -/
def exScnScores2 : Nat → Option Int := fun e => if e = 7 then some 3 else some 1

/-- Gameweek 1: player 7 starts (slot 3), player 8 is benched (slot 12). -/
def exScnRecord1 : Record :=
  buildRecord 1 exEntries 1 [⟨7, 3⟩, ⟨8, 12⟩] exScnInfo exScnScores1 0 0 []

/-- Gameweek 2: player 7 benched (slot 12), player 8 starts (slot 1),
seeded from the gameweek-1 record. -/
def exScnRecord2 : Record :=
  buildRecord 1 exEntries 2 [⟨7, 12⟩, ⟨8, 1⟩] exScnInfo exScnScores2
    exScnRecord1.total_points exScnRecord1.total_optimal_points
    exScnRecord1.total_player_stats

/-! ### Stable-sort lemmas -/

theorem perm_insertSorted (le : α → α → Bool) (x : α) (l : List α) :
    (insertSorted le x l).Perm (x :: l) := by
  induction l with
  | nil => exact List.Perm.refl _
  | cons y ys ih =>
      unfold insertSorted
      split
      · exact List.Perm.refl _
      · exact (ih.cons y).trans (List.Perm.swap x y ys)

theorem perm_sortBy (le : α → α → Bool) (l : List α) :
    (sortBy le l).Perm l := by
  induction l with
  | nil => exact List.Perm.refl _
  | cons x xs ih =>
      exact (perm_insertSorted le x (sortBy le xs)).trans (ih.cons x)

theorem length_sortBy (le : α → α → Bool) (l : List α) :
    (sortBy le l).length = l.length :=
  (perm_sortBy le l).length_eq

theorem pairwise_insertSorted (le : α → α → Bool)
    (htrans : ∀ a b c, le a b = true → le b c = true → le a c = true)
    (htotal : ∀ a b, le a b = true ∨ le b a = true) (x : α) (l : List α)
    (hl : l.Pairwise (fun a b => le a b = true)) :
    (insertSorted le x l).Pairwise (fun a b => le a b = true) := by
  induction l with
  | nil => simp [insertSorted]
  | cons y ys ih =>
      unfold insertSorted
      rcases List.pairwise_cons.mp hl with ⟨hy, hys⟩
      split
      · rename_i hxy
        refine List.pairwise_cons.mpr ⟨?_, hl⟩
        intro z hz
        rcases List.mem_cons.mp hz with rfl | hz2
        · exact hxy
        · exact htrans x y z hxy (hy z hz2)
      · rename_i hxy
        have hyx : le y x = true := by
          rcases htotal x y with h | h
          · exact absurd h hxy
          · exact h
        refine List.pairwise_cons.mpr ⟨?_, ih hys⟩
        intro z hz
        have hz2 : z = x ∨ z ∈ ys :=
          List.mem_cons.mp ((perm_insertSorted le x ys).mem_iff.mp hz)
        rcases hz2 with rfl | hz2
        · exact hyx
        · exact hy z hz2

theorem pairwise_sortBy (le : α → α → Bool)
    (htrans : ∀ a b c, le a b = true → le b c = true → le a c = true)
    (htotal : ∀ a b, le a b = true ∨ le b a = true) (l : List α) :
    (sortBy le l).Pairwise (fun a b => le a b = true) := by
  induction l with
  | nil => simp [sortBy]
  | cons x xs ih => exact pairwise_insertSorted le htrans htotal x _ ih

/-! ### Characterizations of one builder-loop step -/

section StepLemmas

variable (g : Nat → Option Int) (b : Nat → PlayerInfo)

theorem processPick_week_points (acc : Record) (p : Pick) :
    (processPick g b acc p).week_points =
      acc.week_points + (if p.position ≤ 11 then pickScore g p else 0) := by
  unfold processPick pickScore
  split <;> simp

theorem processPick_benched_points (acc : Record) (p : Pick) :
    (processPick g b acc p).benched_points =
      acc.benched_points + (if p.position ≤ 11 then 0 else pickScore g p) := by
  unfold processPick pickScore
  split <;> simp

theorem processPick_total_points (acc : Record) (p : Pick) :
    (processPick g b acc p).total_points =
      acc.total_points + (if p.position ≤ 11 then pickScore g p else 0) := by
  unfold processPick pickScore
  split <;> simp

theorem processPick_total_optimal (acc : Record) (p : Pick) :
    (processPick g b acc p).total_optimal_points = acc.total_optimal_points := by
  unfold processPick
  split <;> simp

theorem processPick_player_stats (acc : Record) (p : Pick) :
    (processPick g b acc p).player_stats =
      acc.player_stats ++ [enrichPick g b p] := by
  unfold processPick
  split <;> simp

theorem processPick_team_formation (acc : Record) (p : Pick) :
    (processPick g b acc p).team_formation =
      if p.position ≤ 11 then
        incrAt acc.team_formation ((b p.element).element_type - 1)
      else acc.team_formation := by
  unfold processPick
  split <;> simp

theorem processPick_total_player_stats (acc : Record) (p : Pick) :
    (processPick g b acc p).total_player_stats =
      if p.position ≤ 11 then
        addStarterPoints acc.total_player_stats p.element (b p.element)
          (pickScore g p)
      else
        addBenchPoints acc.total_player_stats p.element (b p.element)
          (pickScore g p) := by
  unfold processPick pickScore
  split <;> simp

end StepLemmas

/-! ### Characterizations of the whole builder loop -/

section FoldLemmas

variable (g : Nat → Option Int) (b : Nat → PlayerInfo)

theorem foldl_week_points (picks : List Pick) (acc : Record) :
    (picks.foldl (processPick g b) acc).week_points =
      acc.week_points + sumScores g (starters picks) := by
  induction picks generalizing acc with
  | nil => simp [sumScores, starters]
  | cons p ps ih =>
      rw [List.foldl_cons, ih]
      rw [processPick_week_points]
      unfold starters sumScores
      by_cases h : p.position ≤ 11 <;>
        simp [h, List.filter_cons, sumScores, starters, add_assoc]

theorem foldl_benched_points (picks : List Pick) (acc : Record) :
    (picks.foldl (processPick g b) acc).benched_points =
      acc.benched_points + sumScores g (bench picks) := by
  induction picks generalizing acc with
  | nil => simp [sumScores, bench]
  | cons p ps ih =>
      rw [List.foldl_cons, ih]
      rw [processPick_benched_points]
      by_cases h : p.position ≤ 11
      · simp [h, List.filter_cons, sumScores, bench, add_assoc]
      · have h2 : 11 < p.position := Nat.not_le.mp h
        simp [h, h2, List.filter_cons, sumScores, bench, add_assoc]

theorem foldl_total_points (picks : List Pick) (acc : Record) :
    (picks.foldl (processPick g b) acc).total_points =
      acc.total_points + sumScores g (starters picks) := by
  induction picks generalizing acc with
  | nil => simp [sumScores, starters]
  | cons p ps ih =>
      rw [List.foldl_cons, ih]
      rw [processPick_total_points]
      by_cases h : p.position ≤ 11 <;>
        simp [h, List.filter_cons, sumScores, starters, add_assoc]

theorem foldl_total_optimal (picks : List Pick) (acc : Record) :
    (picks.foldl (processPick g b) acc).total_optimal_points =
      acc.total_optimal_points := by
  induction picks generalizing acc with
  | nil => rfl
  | cons p ps ih => rw [List.foldl_cons, ih, processPick_total_optimal]

theorem foldl_player_stats (picks : List Pick) (acc : Record) :
    (picks.foldl (processPick g b) acc).player_stats =
      acc.player_stats ++ picks.map (enrichPick g b) := by
  induction picks generalizing acc with
  | nil => simp
  | cons p ps ih =>
      rw [List.foldl_cons, ih, processPick_player_stats]
      simp

end FoldLemmas

/-! ### `incrAt` arithmetic -/

theorem incrAt_length (l : List Nat) (i : Nat) : (incrAt l i).length = l.length := by
  induction l generalizing i with
  | nil => rfl
  | cons x xs ih =>
      cases i with
      | zero => rfl
      | succ n => simpa [incrAt] using ih n

theorem getD_incrAt_self (l : List Nat) (i : Nat) (h : i < l.length) :
    (incrAt l i).getD i 0 = l.getD i 0 + 1 := by
  induction l generalizing i with
  | nil => simp at h
  | cons x xs ih =>
      cases i with
      | zero => rfl
      | succ n => simpa [incrAt] using ih n (by simpa using h)

theorem getD_incrAt_ne (l : List Nat) (i c : Nat) (h : i ≠ c) :
    (incrAt l i).getD c 0 = l.getD c 0 := by
  induction l generalizing i c with
  | nil => rfl
  | cons x xs ih =>
      cases i with
      | zero =>
          cases c with
          | zero => exact absurd rfl h
          | succ m => rfl
      | succ n =>
          cases c with
          | zero => rfl
          | succ m => simpa [incrAt] using ih n m (by omega)

theorem sum_incrAt (l : List Nat) (i : Nat) (h : i < l.length) :
    (incrAt l i).sum = l.sum + 1 := by
  induction l generalizing i with
  | nil => simp at h
  | cons x xs ih =>
      cases i with
      | zero => simp [incrAt]; omega
      | succ n =>
          have := ih n (by simpa using h)
          simp [incrAt, this]
          omega

section FormationFold

variable (g : Nat → Option Int) (b : Nat → PlayerInfo)

theorem foldl_team_formation_length (picks : List Pick) (acc : Record) :
    (picks.foldl (processPick g b) acc).team_formation.length =
      acc.team_formation.length := by
  induction picks generalizing acc with
  | nil => rfl
  | cons p ps ih =>
      rw [List.foldl_cons, ih, processPick_team_formation]
      split
      · exact incrAt_length _ _
      · rfl

theorem foldl_team_formation_getD (picks : List Pick) (acc : Record) (c : Nat)
    (hcats : validPickCats picks b) (hlen : acc.team_formation.length = 4)
    (hc : c < 4) :
    (picks.foldl (processPick g b) acc).team_formation.getD c 0 =
      acc.team_formation.getD c 0 + countStarters picks b (c + 1) := by
  induction picks generalizing acc with
  | nil => simp [countStarters, starters]
  | cons p ps ih =>
      rw [List.foldl_cons]
      have hcat := hcats p (by simp)
      have hlen2 : (processPick g b acc p).team_formation.length = 4 := by
        rw [processPick_team_formation]
        split
        · rw [incrAt_length]; exact hlen
        · exact hlen
      rw [ih _ (fun q hq => hcats q (List.mem_cons_of_mem p hq)) hlen2]
      rw [processPick_team_formation]
      by_cases hst : p.position ≤ 11
      · by_cases hcc : (b p.element).element_type = c + 1
        · have he : (b p.element).element_type - 1 = c := by omega
          rw [if_pos hst, he, getD_incrAt_self _ _ (by rw [hlen]; omega)]
          simp [countStarters, starters, List.filter_cons, hst, hcc]
          omega
        · have hne : (b p.element).element_type - 1 ≠ c := by omega
          rw [if_pos hst, getD_incrAt_ne _ _ _ hne]
          simp [countStarters, starters, List.filter_cons, hst, hcc]
      · rw [if_neg hst]
        simp [countStarters, starters, List.filter_cons, hst]

theorem foldl_team_formation_sum (picks : List Pick) (acc : Record)
    (hcats : validPickCats picks b) (hlen : acc.team_formation.length = 4) :
    (picks.foldl (processPick g b) acc).team_formation.sum =
      acc.team_formation.sum + (starters picks).length := by
  induction picks generalizing acc with
  | nil => simp [starters]
  | cons p ps ih =>
      rw [List.foldl_cons]
      have hcat := hcats p (by simp)
      have hlen2 : (processPick g b acc p).team_formation.length = 4 := by
        rw [processPick_team_formation]
        split
        · rw [incrAt_length]; exact hlen
        · exact hlen
      rw [ih _ (fun q hq => hcats q (List.mem_cons_of_mem p hq)) hlen2]
      rw [processPick_team_formation]
      by_cases hst : p.position ≤ 11
      · rw [if_pos hst, sum_incrAt _ _ (by rw [hlen]; omega)]
        simp [starters, List.filter_cons, hst]
        omega
      · rw [if_neg hst]
        simp [starters, List.filter_cons, hst]

end FormationFold

/-! ### Lookup in `total_player_stats` after an update -/

theorem lookupStats_updateEntry (f : PlayerTotals → PlayerTotals) (e : Nat)
    (stats : List (Nat × PlayerTotals)) :
    lookupStats (updateEntry f e stats) e = (lookupStats stats e).map f := by
  induction stats with
  | nil => rfl
  | cons kv rest ih =>
      obtain ⟨k, v⟩ := kv
      by_cases hk : k = e <;> simp [updateEntry, lookupStats, hk, ih]

theorem lookupStats_append_single (stats : List (Nat × PlayerTotals)) (e : Nat)
    (v : PlayerTotals) (h : lookupStats stats e = none) :
    lookupStats (stats ++ [(e, v)]) e = some v := by
  induction stats with
  | nil => simp [lookupStats]
  | cons kv rest ih =>
      obtain ⟨k, w⟩ := kv
      by_cases hk : k = e
      · simp [lookupStats, hk] at h
      · simp [lookupStats, hk] at h ⊢
        exact ih h

theorem lookupStats_addStarterPoints (stats : List (Nat × PlayerTotals))
    (e : Nat) (info : PlayerInfo) (pts : Int) :
    lookupStats (addStarterPoints stats e info pts) e =
      some (match lookupStats stats e with
            | some t => { t with total_points := t.total_points + pts }
            | none => { first_name := info.first_name,
                        second_name := info.second_name,
                        total_points := pts, total_benched_points := 0 }) := by
  unfold addStarterPoints
  cases h : lookupStats stats e with
  | some t => rw [lookupStats_updateEntry, h]; rfl
  | none => rw [lookupStats_append_single _ _ _ h]

theorem lookupStats_addBenchPoints (stats : List (Nat × PlayerTotals))
    (e : Nat) (info : PlayerInfo) (pts : Int) :
    lookupStats (addBenchPoints stats e info pts) e =
      some (match lookupStats stats e with
            | some t =>
                { t with total_benched_points := t.total_benched_points + pts }
            | none => { first_name := info.first_name,
                        second_name := info.second_name,
                        total_points := 0, total_benched_points := pts }) := by
  unfold addBenchPoints
  cases h : lookupStats stats e with
  | some t => rw [lookupStats_updateEntry, h]; rfl
  | none => rw [lookupStats_append_single _ _ _ h]

/-! ### The solver's running maximum as a `max` -/

theorem foldl_if_lt_eq_foldl_max (l : List Int) (a : Int) :
    l.foldl (fun acc t => if acc < t then t else acc) a = l.foldl max a := by
  have hbody : (fun (acc t : Int) => if acc < t then t else acc) = max := by
    funext acc t
    rcases le_or_lt t acc with h | h
    · simp [not_lt_of_le h, max_eq_left h]
    · simp [h, max_eq_right (le_of_lt h)]
  rw [hbody]

theorem foldl_max_max (l : List Int) (a t : Int) :
    l.foldl max (max a t) = max a (l.foldl max t) := by
  induction l generalizing t with
  | nil => rfl
  | cons c l ih => rw [List.foldl_cons, List.foldl_cons, max_assoc, ih]

theorem le_foldl_max (l : List Int) (a x : Int) (h : x ∈ l ∨ x ≤ a) :
    x ≤ l.foldl max a := by
  induction l generalizing a with
  | nil =>
      rcases h with h | h
      · simp at h
      · exact h
  | cons c l ih =>
      rw [List.foldl_cons]
      refine ih _ ?_
      rcases h with h | h
      · rcases List.mem_cons.mp h with rfl | h2
        · exact Or.inr (le_max_right a x)
        · exact Or.inl h2
      · exact Or.inr (le_trans h (le_max_left a c))

/-- The solver equals `max 0` of the spec's maximum over the eight
formations: the running maximum starts at 0, so an all-negative squad is
reported as 0. -/
theorem calculate_optimal_points_eq_max (ps : List PlayerStat) :
    calculate_optimal_points ps = max 0 (bestFormationTotal ps) := by
  unfold calculate_optimal_points bestFormationTotal
  have h1 : formations.foldl
      (fun optimal_points f =>
        let formation_points := formationPoints ps f
        if optimal_points < formation_points then formation_points
        else optimal_points) 0 =
      (formations.map (formationPoints ps)).foldl
        (fun acc t => if acc < t then t else acc) 0 := by
    rw [List.foldl_map]
  rw [h1, foldl_if_lt_eq_foldl_max]
  simp only [formations, List.map_cons, List.map_nil]
  rw [List.foldl_cons, foldl_max_max]

theorem le_bestFormationTotal (ps : List PlayerStat) (f : List Nat)
    (hf : f ∈ formations) : formationPoints ps f ≤ bestFormationTotal ps := by
  unfold bestFormationTotal
  have hmem : formationPoints ps f ∈ formations.map (formationPoints ps) :=
    List.mem_map_of_mem _ hf
  revert hmem
  simp only [formations, List.map_cons, List.map_nil]
  intro hmem
  rcases List.mem_cons.mp hmem with he | hmem2
  · exact le_foldl_max _ _ _ (Or.inr (le_of_eq he))
  · exact le_foldl_max _ _ _ (Or.inl hmem2)

/-! ### Top-`k` of a descending list dominates every `k`-subselection -/

theorem pairwise_points_squadBucket (ps : List PlayerStat) (pos : Nat) :
    ((squadBucket ps pos).map (fun p => p.points)).Pairwise (· ≥ ·) := by
  have h := pairwise_sortBy (fun a b : PlayerStat => decide (b.points ≤ a.points))
    (fun a b c h1 h2 => by
      simp only [decide_eq_true_eq] at h1 h2 ⊢
      exact le_trans h2 h1)
    (fun a b => by
      rcases le_total a.points b.points with h | h
      · exact Or.inr (by simpa using h)
      · exact Or.inl (by simpa using h))
    (ps.filter (fun p => p.true_position = pos + 1))
  rw [List.pairwise_map]
  exact h.imp (fun hab => by simpa using hab)

theorem sum_take_cons_le (a : Int) (l : List Int) (n : Nat)
    (hsort : (a :: l).Pairwise (· ≥ ·)) (hn : n ≤ l.length) :
    (l.take n).sum ≤ ((a :: l).take n).sum := by
  cases n with
  | zero => simp
  | succ m =>
      rw [List.take_succ_cons, List.sum_cons]
      have hm : m < l.length := by omega
      rw [List.sum_take_succ l m hm]
      have ha : a ≥ l[m] := (List.pairwise_cons.mp hsort).1 _ (List.getElem_mem hm)
      omega

theorem sum_subperm_le_sum_take (l : List Int) (s : List Int)
    (hsort : l.Pairwise (· ≥ ·)) (hs : s.Subperm l) :
    s.sum ≤ (l.take s.length).sum := by
  induction l generalizing s with
  | nil =>
      rw [List.subperm_nil.mp hs]
      simp
  | cons a l ih =>
      obtain ⟨s', hperm, hsl⟩ := hs
      rcases List.sublist_cons_iff.mp hsl with hsl2 | ⟨t, rfl, htl⟩
      · have hsub : s.Subperm l := ⟨s', hperm, hsl2⟩
        have h1 := ih _ (List.pairwise_cons.mp hsort).2 hsub
        exact le_trans h1 (sum_take_cons_le a l s.length hsort hsub.length_le)
      · have hsum : s.sum = a + t.sum := by
          rw [← hperm.sum_eq, List.sum_cons]
        have hlen : s.length = t.length + 1 := by
          rw [← hperm.length_eq, List.length_cons]
        rw [hsum, hlen, List.take_succ_cons, List.sum_cons]
        have h1 := ih t (List.pairwise_cons.mp hsort).2 htl.subperm
        omega

/-- Splitting the points total of a fully categorized list of players
across the four category buckets. -/
theorem sum_points_partition (l : List PlayerStat)
    (h : ∀ q ∈ l, 1 ≤ q.true_position ∧ q.true_position ≤ 4) :
    (l.map (fun p => p.points)).sum =
      ((l.filter (fun p => p.true_position = 1)).map (fun p => p.points)).sum +
      ((l.filter (fun p => p.true_position = 2)).map (fun p => p.points)).sum +
      ((l.filter (fun p => p.true_position = 3)).map (fun p => p.points)).sum +
      ((l.filter (fun p => p.true_position = 4)).map (fun p => p.points)).sum := by
  induction l with
  | nil => simp
  | cons q l ih =>
      have hq := h q (by simp)
      have hrest := ih (fun r hr => h r (List.mem_cons_of_mem q hr))
      have hcases : q.true_position = 1 ∨ q.true_position = 2 ∨
          q.true_position = 3 ∨ q.true_position = 4 := by omega
      rcases hcases with hc | hc | hc | hc <;>
        simp [List.filter_cons, hc, hrest] <;> ring

/-- For a recognized category `c`, the summed scores of the starters of
category `c` are at most the top-`k` sum of that category's bucket, `k`
being the number of such starters. -/
theorem cat_sum_le_topSum (ps : List PlayerStat) (c : Nat) (hc1 : 1 ≤ c)
    (hc4 : c ≤ 4) :
    (((ps.filter (fun q => q.position ≤ 11)).filter
        (fun q => q.true_position = c)).map (fun p => p.points)).sum ≤
      topSum ps (c - 1)
        ((ps.filter (fun q => q.position ≤ 11)).filter
          (fun q => q.true_position = c)).length := by
  have hpos : c - 1 + 1 = c := by omega
  unfold topSum
  rw [List.map_take]
  have hsort := pairwise_points_squadBucket ps (c - 1)
  have hsubl : ((ps.filter (fun q => q.position ≤ 11)).filter
      (fun q => q.true_position = c)).Sublist (ps.filter (fun q => q.true_position = c)) :=
    List.Sublist.filter _ (List.filter_sublist ps)
  have hbucket : (squadBucket ps (c - 1)).Perm
      (ps.filter (fun q => q.true_position = c)) := by
    unfold squadBucket
    rw [hpos]
    exact perm_sortBy _ _
  have hsub : (((ps.filter (fun q => q.position ≤ 11)).filter
      (fun q => q.true_position = c)).map (fun p => p.points)).Subperm
      ((squadBucket ps (c - 1)).map (fun p => p.points)) :=
    ((hsubl.map (fun p => p.points)).subperm).trans
      ((hbucket.symm.map (fun p => p.points)).subperm)
  have h := sum_subperm_le_sum_take _ _ hsort hsub
  rwa [List.length_map] at h

/-- Core of the dominance property: if the starters' category counts form
one of the eight legal formations, the solver result is at least the
starters' points total. -/
theorem starters_sum_le_optimal (ps : List PlayerStat) (hcats : validCats ps)
    (hform :
      [((ps.filter (fun q => q.position ≤ 11)).filter
          (fun q => q.true_position = 1)).length,
       ((ps.filter (fun q => q.position ≤ 11)).filter
          (fun q => q.true_position = 2)).length,
       ((ps.filter (fun q => q.position ≤ 11)).filter
          (fun q => q.true_position = 3)).length,
       ((ps.filter (fun q => q.position ≤ 11)).filter
          (fun q => q.true_position = 4)).length] ∈ formations) :
    ((ps.filter (fun q => q.position ≤ 11)).map (fun p => p.points)).sum ≤
      calculate_optimal_points ps := by
  have hstcats : ∀ q ∈ ps.filter (fun q => q.position ≤ 11),
      1 ≤ q.true_position ∧ q.true_position ≤ 4 :=
    fun q hq => hcats q (List.mem_filter.mp hq).1
  rw [sum_points_partition _ hstcats]
  have h1 := cat_sum_le_topSum ps 1 (by omega) (by omega)
  have h2 := cat_sum_le_topSum ps 2 (by omega) (by omega)
  have h3 := cat_sum_le_topSum ps 3 (by omega) (by omega)
  have h4 := cat_sum_le_topSum ps 4 (by omega) (by omega)
  have hfp : formationPoints ps
      [((ps.filter (fun q => q.position ≤ 11)).filter
          (fun q => q.true_position = 1)).length,
       ((ps.filter (fun q => q.position ≤ 11)).filter
          (fun q => q.true_position = 2)).length,
       ((ps.filter (fun q => q.position ≤ 11)).filter
          (fun q => q.true_position = 3)).length,
       ((ps.filter (fun q => q.position ≤ 11)).filter
          (fun q => q.true_position = 4)).length] =
      topSum ps 0 ((ps.filter (fun q => q.position ≤ 11)).filter
          (fun q => q.true_position = 1)).length +
      topSum ps 1 ((ps.filter (fun q => q.position ≤ 11)).filter
          (fun q => q.true_position = 2)).length +
      topSum ps 2 ((ps.filter (fun q => q.position ≤ 11)).filter
          (fun q => q.true_position = 3)).length +
      topSum ps 3 ((ps.filter (fun q => q.position ≤ 11)).filter
          (fun q => q.true_position = 4)).length := rfl
  have hbest := le_bestFormationTotal ps _ hform
  rw [hfp] at hbest
  rw [calculate_optimal_points_eq_max]
  have hmax : bestFormationTotal ps ≤ max 0 (bestFormationTotal ps) :=
    le_max_right _ _
  simp only [show (1 : Nat) - 1 = 0 from rfl, show (2 : Nat) - 1 = 1 from rfl,
    show (3 : Nat) - 1 = 2 from rfl, show (4 : Nat) - 1 = 3 from rfl] at h1 h2 h3 h4
  omega

/-! ### Enrichment commutes with the starter/category filters -/

section EnrichLemmas

variable (g : Nat → Option Int) (b : Nat → PlayerInfo)

theorem filter_pos_map_enrich (picks : List Pick) :
    (picks.map (enrichPick g b)).filter (fun q => q.position ≤ 11) =
      (starters picks).map (enrichPick g b) := by
  rw [starters, List.filter_map]
  rfl

theorem filter_cat_map_enrich (l : List Pick) (c : Nat) :
    (l.map (enrichPick g b)).filter (fun q => q.true_position = c) =
      (l.filter (fun p => (b p.element).element_type = c)).map (enrichPick g b) := by
  rw [List.filter_map]
  rfl

theorem sum_points_map_enrich (l : List Pick) :
    ((l.map (enrichPick g b)).map (fun p => p.points)).sum = sumScores g l := by
  rw [List.map_map]
  rfl

theorem validCats_map_enrich (picks : List Pick) (h : validPickCats picks b) :
    validCats (picks.map (enrichPick g b)) := by
  intro q hq
  obtain ⟨p, hp, rfl⟩ := List.mem_map.mp hq
  exact h p hp

theorem countStarters_eq_enriched (picks : List Pick) (c : Nat) :
    (((picks.map (enrichPick g b)).filter (fun q => q.position ≤ 11)).filter
        (fun q => q.true_position = c)).length = countStarters picks b c := by
  rw [filter_pos_map_enrich, filter_cat_map_enrich, List.length_map]
  rfl

end EnrichLemmas

/-! ### Characterizations of `buildRecord` -/

section BuildLemmas

variable (tid : Nat) (entries : Nat → String × String) (gw : Nat)
variable (picks : List Pick) (b : Nat → PlayerInfo) (g : Nat → Option Int)
variable (pT pO : Int) (pS : List (Nat × PlayerTotals))

theorem buildRecord_week_points :
    (buildRecord tid entries gw picks b g pT pO pS).week_points =
      sumScores g (starters picks) := by
  show (picks.foldl (processPick g b)
    (initRecord tid entries gw pT pO pS)).week_points = _
  rw [foldl_week_points]
  simp [initRecord]

theorem buildRecord_benched_points :
    (buildRecord tid entries gw picks b g pT pO pS).benched_points =
      sumScores g (bench picks) := by
  show (picks.foldl (processPick g b)
    (initRecord tid entries gw pT pO pS)).benched_points = _
  rw [foldl_benched_points]
  simp [initRecord]

theorem buildRecord_player_stats :
    (buildRecord tid entries gw picks b g pT pO pS).player_stats =
      picks.map (enrichPick g b) := by
  show (picks.foldl (processPick g b)
    (initRecord tid entries gw pT pO pS)).player_stats = _
  rw [foldl_player_stats]
  simp [initRecord]

theorem buildRecord_optimal_points :
    (buildRecord tid entries gw picks b g pT pO pS).optimal_points =
      calculate_optimal_points (picks.map (enrichPick g b)) := by
  show calculate_optimal_points (picks.foldl (processPick g b)
    (initRecord tid entries gw pT pO pS)).player_stats = _
  rw [foldl_player_stats]
  simp [initRecord]

theorem buildRecord_total_points :
    (buildRecord tid entries gw picks b g pT pO pS).total_points =
      pT + sumScores g (starters picks) := by
  show (picks.foldl (processPick g b)
    (initRecord tid entries gw pT pO pS)).total_points = _
  rw [foldl_total_points]
  simp [initRecord]

theorem buildRecord_total_optimal_points :
    (buildRecord tid entries gw picks b g pT pO pS).total_optimal_points =
      pO + calculate_optimal_points (picks.map (enrichPick g b)) := by
  show (picks.foldl (processPick g b)
        (initRecord tid entries gw pT pO pS)).total_optimal_points +
      calculate_optimal_points (picks.foldl (processPick g b)
        (initRecord tid entries gw pT pO pS)).player_stats = _
  rw [foldl_total_optimal, foldl_player_stats]
  simp [initRecord]

theorem buildRecord_team_formation_getD (hcats : validPickCats picks b)
    (c : Nat) (hc : c < 4) :
    (buildRecord tid entries gw picks b g pT pO pS).team_formation.getD c 0 =
      countStarters picks b (c + 1) := by
  show (picks.foldl (processPick g b)
    (initRecord tid entries gw pT pO pS)).team_formation.getD c 0 = _
  rw [foldl_team_formation_getD g b picks _ c hcats (by rfl) hc]
  have h0 : (initRecord tid entries gw pT pO pS).team_formation.getD c 0 = 0 := by
    show List.getD [0, 0, 0, 0] c 0 = 0
    interval_cases c <;> rfl
  rw [h0, Nat.zero_add]

theorem buildRecord_team_formation_sum (hcats : validPickCats picks b) :
    (buildRecord tid entries gw picks b g pT pO pS).team_formation.sum =
      (starters picks).length := by
  show (picks.foldl (processPick g b)
    (initRecord tid entries gw pT pO pS)).team_formation.sum = _
  rw [foldl_team_formation_sum g b picks _ hcats (by rfl)]
  simp [initRecord]

theorem processPick_min_formation (acc : Record) (p : Pick) :
    (processPick g b acc p).min_formation = acc.min_formation := by
  unfold processPick
  split <;> simp

theorem processPick_max_formation (acc : Record) (p : Pick) :
    (processPick g b acc p).max_formation = acc.max_formation := by
  unfold processPick
  split <;> simp

theorem foldl_min_formation (acc : Record) :
    (picks.foldl (processPick g b) acc).min_formation = acc.min_formation := by
  induction picks generalizing acc with
  | nil => rfl
  | cons p ps ih => rw [List.foldl_cons, ih, processPick_min_formation]

theorem foldl_max_formation (acc : Record) :
    (picks.foldl (processPick g b) acc).max_formation = acc.max_formation := by
  induction picks generalizing acc with
  | nil => rfl
  | cons p ps ih => rw [List.foldl_cons, ih, processPick_max_formation]

theorem buildRecord_min_formation :
    (buildRecord tid entries gw picks b g pT pO pS).min_formation =
      [1, 3, 2, 1] := by
  show (picks.foldl (processPick g b)
    (initRecord tid entries gw pT pO pS)).min_formation = _
  rw [foldl_min_formation]
  rfl

theorem buildRecord_max_formation :
    (buildRecord tid entries gw picks b g pT pO pS).max_formation =
      [1, 5, 5, 3] := by
  show (picks.foldl (processPick g b)
    (initRecord tid entries gw pT pO pS)).max_formation = _
  rw [foldl_max_formation]
  rfl

end BuildLemmas

/-! ### Permutation invariance of the solver -/

theorem pairwise_sortBy_key {α : Type _} (key : α → Int) (l : List α) :
    (sortBy (fun a b => key b ≤ key a) l).Pairwise (fun a b => key b ≤ key a) := by
  have h := pairwise_sortBy (fun a b => decide (key b ≤ key a))
    (fun a b c h1 h2 => by
      simp only [decide_eq_true_eq] at h1 h2 ⊢
      exact le_trans h2 h1)
    (fun a b => by
      rcases le_total (key a) (key b) with h | h
      · exact Or.inr (by simpa using h)
      · exact Or.inl (by simpa using h)) l
  exact h.imp (fun hab => by simpa using hab)

theorem map_points_squadBucket_perm_eq (l1 l2 : List PlayerStat)
    (h : l1.Perm l2) (pos : Nat) :
    (squadBucket l1 pos).map (fun p => p.points) =
      (squadBucket l2 pos).map (fun p => p.points) := by
  apply List.eq_of_perm_of_sorted (r := fun a b : Int => a ≥ b)
  · unfold squadBucket
    have p1 := (perm_sortBy (fun a b : PlayerStat => b.points ≤ a.points)
      (l1.filter (fun p => p.true_position = pos + 1))).map (fun p => p.points)
    have p2 := (perm_sortBy (fun a b : PlayerStat => b.points ≤ a.points)
      (l2.filter (fun p => p.true_position = pos + 1))).map (fun p => p.points)
    have pf := (h.filter (fun p => p.true_position = pos + 1)).map
      (fun p => p.points)
    exact p1.trans (pf.trans p2.symm)
  · exact pairwise_points_squadBucket l1 pos
  · exact pairwise_points_squadBucket l2 pos

theorem topSum_perm_eq (l1 l2 : List PlayerStat) (h : l1.Perm l2)
    (pos k : Nat) : topSum l1 pos k = topSum l2 pos k := by
  unfold topSum
  rw [List.map_take, List.map_take, map_points_squadBucket_perm_eq l1 l2 h pos]

theorem formationPoints_perm_eq (l1 l2 : List PlayerStat) (h : l1.Perm l2)
    (f : List Nat) : formationPoints l1 f = formationPoints l2 f := by
  unfold formationPoints
  rw [topSum_perm_eq l1 l2 h, topSum_perm_eq l1 l2 h, topSum_perm_eq l1 l2 h,
    topSum_perm_eq l1 l2 h]

/-! ### The standings pass: ranks and maxima -/

theorem rank_assignment_snd (teams : List (Nat × Int)) :
    (rank_assignment teams).map (fun x => x.2) = List.range' 1 teams.length := by
  unfold rank_assignment
  have h := List.map_snd_zip (sortBy (fun a b : Nat × Int => b.2 ≤ a.2) teams)
    (List.range' 1 teams.length)
    (by rw [List.length_range', length_sortBy])
  exact h

theorem rank_assignment_fst (teams : List (Nat × Int)) :
    (rank_assignment teams).map (fun x => x.1) =
      sortBy (fun a b => b.2 ≤ a.2) teams := by
  unfold rank_assignment
  exact List.map_fst_zip _ _ (by rw [List.length_range', length_sortBy])

theorem rank_assignment_rank_one_max (teams : List (Nat × Int))
    (x : (Nat × Int) × Nat) (hx : x ∈ rank_assignment teams) (h1 : x.2 = 1) :
    ∀ t ∈ teams, t.2 ≤ x.1.2 := by
  intro t ht
  obtain ⟨i, hi, hxi⟩ := List.mem_iff_getElem.mp hx
  unfold rank_assignment at hxi
  rw [List.getElem_zip] at hxi
  have hlen : i < (sortBy (fun a b : Nat × Int => b.2 ≤ a.2) teams).length := by
    unfold rank_assignment at hi
    rw [List.length_zip] at hi
    omega
  have hrank : x.2 = 1 + 1 * i := by
    rw [← hxi]
    exact List.getElem_range' i _
  have hizero : i = 0 := by omega
  subst hizero
  have hx1 : x.1 = (sortBy (fun a b : Nat × Int => b.2 ≤ a.2) teams)[0] := by
    rw [← hxi]
  have htmem : t ∈ sortBy (fun a b : Nat × Int => b.2 ≤ a.2) teams :=
    (perm_sortBy _ teams).mem_iff.mpr ht
  obtain ⟨j, hj, htj⟩ := List.mem_iff_getElem.mp htmem
  have hpw := pairwise_sortBy_key (fun t : Nat × Int => t.2) teams
  rcases Nat.eq_zero_or_pos j with rfl | hjpos
  · rw [hx1, htj]
  · have := List.pairwise_iff_getElem.mp hpw 0 j hlen hj hjpos
    rw [htj] at this
    rw [hx1]
    exact this

/-- Whatever branch `calculate_gw_stats` takes, a produced record is a
`buildRecord` for the same roster and lookups. -/
theorem calculate_gw_stats_shape (tid gw : Nat) (entries : Nat → String × String)
    (picks : List Pick) (b : Nat → PlayerInfo) (g : Nat → Option Int)
    (prev : Option Record) (r : Record)
    (h : calculate_gw_stats tid gw entries picks b g prev = some r) :
    ∃ pT pO pS, r = buildRecord tid entries gw picks b g pT pO pS := by
  unfold calculate_gw_stats at h
  split at h
  · cases prev with
    | none => exact absurd h (by simp)
    | some p => exact ⟨_, _, _, (Option.some.inj h).symm⟩
  · exact ⟨_, _, _, (Option.some.inj h).symm⟩

/-! ## The claims -/

/-- C1 (counterexample): on a squad holding a single goalkeeper with a
negative score, every formation's total is −1, so the spec's "maximum
over the eight formations" is −1, yet `calculate_optimal_points` returns
0 — the claim as stated is false. -/
theorem c1_counterexample :
    calculate_optimal_points [⟨7, 1, "A", "B", 1, -1, false⟩] = 0 ∧
    bestFormationTotal [⟨7, 1, "A", "B", 1, -1, false⟩] = -1 := by
  exact ⟨rfl, rfl⟩

/-- C1 (amended): for every list of categorized, scored players, the
solver returns the maximum of 0 and the maximum over the eight formations
of the sum over the four category buckets of the top-`k` scores (a bucket
shorter than `k` contributing all of its players). -/
theorem c1_amended_solver_is_clamped_best (ps : List PlayerStat)
    (hcats : validCats ps) :
    calculate_optimal_points ps = max 0 (bestFormationTotal ps) :=
  calculate_optimal_points_eq_max ps

/-- Witness for C1 (amended) at a concrete two-player squad. -/
theorem c1_amended_witness :
    calculate_optimal_points
        [⟨7, 1, "A", "B", 1, 4, false⟩, ⟨8, 2, "C", "D", 3, 6, false⟩] =
      max 0 (bestFormationTotal
        [⟨7, 1, "A", "B", 1, 4, false⟩, ⟨8, 2, "C", "D", 3, 6, false⟩]) :=
  c1_amended_solver_is_clamped_best _ (by unfold validCats; decide)

/-- C2 (counterexample): the builder accepts a roster whose eleven
starters are all midfielders scoring 10 each; its record has
`week_points = 110` but `optimal_points = 50`, so `optimal_points ≥
week_points` fails for this produced record. -/
theorem c2_counterexample :
    calculate_gw_stats 1 1 exEntries exMidPicks exMidInfo exMidScores none =
      some exMidRecord ∧
    exMidRecord.optimal_points < exMidRecord.week_points := by
  exact ⟨rfl, by decide⟩

/-- C2 (amended): for every produced Gameweek Record whose roster is
categorized and whose actual starters' category counts form one of the
eight legal formations, `optimal_points ≥ week_points`. -/
theorem c2_amended_optimal_dominates (tid gw : Nat)
    (entries : Nat → String × String) (picks : List Pick)
    (b : Nat → PlayerInfo) (g : Nat → Option Int) (prev : Option Record)
    (r : Record) (hcats : validPickCats picks b)
    (hform : starterFormation picks b ∈ formations)
    (h : calculate_gw_stats tid gw entries picks b g prev = some r) :
    r.week_points ≤ r.optimal_points := by
  obtain ⟨pT, pO, pS, rfl⟩ := calculate_gw_stats_shape tid gw entries picks b g prev r h
  rw [buildRecord_week_points, buildRecord_optimal_points]
  have hvc := validCats_map_enrich g b picks hcats
  have hcounts :
      [(((picks.map (enrichPick g b)).filter (fun q => q.position ≤ 11)).filter
          (fun q => q.true_position = 1)).length,
       (((picks.map (enrichPick g b)).filter (fun q => q.position ≤ 11)).filter
          (fun q => q.true_position = 2)).length,
       (((picks.map (enrichPick g b)).filter (fun q => q.position ≤ 11)).filter
          (fun q => q.true_position = 3)).length,
       (((picks.map (enrichPick g b)).filter (fun q => q.position ≤ 11)).filter
          (fun q => q.true_position = 4)).length] = starterFormation picks b := by
    unfold starterFormation
    rw [countStarters_eq_enriched, countStarters_eq_enriched,
      countStarters_eq_enriched, countStarters_eq_enriched]
  have hform2 := hcounts ▸ hform
  have hcore := starters_sum_le_optimal (picks.map (enrichPick g b)) hvc hform2
  rw [filter_pos_map_enrich, sum_points_map_enrich] at hcore
  exact hcore

/-- Witness for C2 (amended): the 4-4-2 fixture roster. -/
theorem c2_amended_witness : exRecord1.week_points ≤ exRecord1.optimal_points :=
  c2_amended_optimal_dominates 1 1 exEntries exPicks exInfo exScores none
    exRecord1 (by unfold validPickCats; decide) (by decide) rfl

/-- C3: a produced record's cumulative totals are the previous record's
cumulative totals (0 when `gw = 1`) plus this week's `week_points` and
`optimal_points` respectively. -/
theorem c3_cumulative_totals (tid gw : Nat) (entries : Nat → String × String)
    (picks : List Pick) (b : Nat → PlayerInfo) (g : Nat → Option Int)
    (prev : Option Record) (r : Record)
    (h : calculate_gw_stats tid gw entries picks b g prev = some r) :
    r.total_points =
      (if gw > 1 then (prev.map (fun p => p.total_points)).getD 0 else 0) +
        r.week_points ∧
    r.total_optimal_points =
      (if gw > 1 then (prev.map (fun p => p.total_optimal_points)).getD 0 else 0) +
        r.optimal_points := by
  unfold calculate_gw_stats at h
  by_cases hgw : gw > 1
  · rw [if_pos hgw] at h
    cases prev with
    | none => exact absurd h (by simp)
    | some p =>
        have hr := (Option.some.inj h).symm
        subst hr
        constructor
        · rw [if_pos hgw, buildRecord_total_points, buildRecord_week_points]
          rfl
        · rw [if_pos hgw, buildRecord_total_optimal_points,
            buildRecord_optimal_points]
          rfl
  · rw [if_neg hgw] at h
    have hr := (Option.some.inj h).symm
    subst hr
    constructor
    · rw [if_neg hgw, buildRecord_total_points, buildRecord_week_points]
    · rw [if_neg hgw, buildRecord_total_optimal_points,
        buildRecord_optimal_points]

/-- Witness for C3: gameweek 2 of the fixture roster, seeded from its
gameweek-1 record. -/
theorem c3_witness :
    exRecord2.total_points = exRecord1.total_points + exRecord2.week_points ∧
    exRecord2.total_optimal_points =
      exRecord1.total_optimal_points + exRecord2.optimal_points :=
  c3_cumulative_totals 1 2 exEntries exPicks exInfo exScores (some exRecord1)
    exRecord2 rfl

/-- C4: a produced record's `week_points` is the summed gameweek scores of
the picks in slots 1–11 and `benched_points` that of the remaining slots,
a player absent from the score index contributing 0. -/
theorem c4_week_and_bench_sums (tid gw : Nat) (entries : Nat → String × String)
    (picks : List Pick) (b : Nat → PlayerInfo) (g : Nat → Option Int)
    (prev : Option Record) (r : Record)
    (h : calculate_gw_stats tid gw entries picks b g prev = some r) :
    r.week_points = sumScores g (starters picks) ∧
    r.benched_points = sumScores g (bench picks) := by
  obtain ⟨pT, pO, pS, rfl⟩ := calculate_gw_stats_shape tid gw entries picks b g prev r h
  exact ⟨buildRecord_week_points _ _ _ _ _ _ _ _ _,
    buildRecord_benched_points _ _ _ _ _ _ _ _ _⟩

/-- Witness for C4: the fixture roster (player 9 absent from the index). -/
theorem c4_witness :
    exRecord1.week_points = sumScores exScores (starters exPicks) ∧
    exRecord1.benched_points = sumScores exScores (bench exPicks) :=
  c4_week_and_bench_sums 1 1 exEntries exPicks exInfo exScores none exRecord1 rfl

/-- C5: for a categorized roster, each `team_formation` component counts
exactly the starters of that category (the builder only reports, it never
alters or validates); with eleven starters the components sum to 11, and a
component is within `[min_formation, max_formation]` exactly when the
input roster's starter count for that category is. -/
theorem c5_team_formation_faithful (tid gw : Nat)
    (entries : Nat → String × String) (picks : List Pick)
    (b : Nat → PlayerInfo) (g : Nat → Option Int) (prev : Option Record)
    (r : Record) (hcats : validPickCats picks b)
    (h : calculate_gw_stats tid gw entries picks b g prev = some r) :
    (∀ c : Nat, c < 4 →
      r.team_formation.getD c 0 = countStarters picks b (c + 1)) ∧
    ((starters picks).length = 11 → r.team_formation.sum = 11) ∧
    (∀ c : Nat, c < 4 →
      ((r.min_formation.getD c 0 ≤ r.team_formation.getD c 0 ∧
        r.team_formation.getD c 0 ≤ r.max_formation.getD c 0) ↔
       (List.getD [1, 3, 2, 1] c 0 ≤ countStarters picks b (c + 1) ∧
        countStarters picks b (c + 1) ≤ List.getD [1, 5, 5, 3] c 0))) := by
  obtain ⟨pT, pO, pS, rfl⟩ := calculate_gw_stats_shape tid gw entries picks b g prev r h
  refine ⟨fun c hc => buildRecord_team_formation_getD _ _ _ _ _ _ _ _ _ hcats c hc,
    ?_, fun c hc => ?_⟩
  · intro h11
    rw [buildRecord_team_formation_sum _ _ _ _ _ _ _ _ _ hcats, h11]
  · rw [buildRecord_team_formation_getD _ _ _ _ _ _ _ _ _ hcats c hc,
      buildRecord_min_formation, buildRecord_max_formation]

/-- Witness for C5: the fixture roster has starter counts [1,4,4,2]. -/
theorem c5_witness :
    exRecord1.team_formation.getD 1 0 = countStarters exPicks exInfo 2 ∧
    exRecord1.team_formation.sum = 11 :=
  ⟨(c5_team_formation_faithful 1 1 exEntries exPicks exInfo exScores none
      exRecord1 (by unfold validPickCats; decide) rfl).1 1 (by omega),
   (c5_team_formation_faithful 1 1 exEntries exPicks exInfo exScores none
      exRecord1 (by unfold validPickCats; decide) rfl).2.1 (by decide)⟩

/-- C6: per-player totals accumulate: processing a pick adds a starter's
score to that player's `total_points` (creating the entry with
`total_benched_points = 0` on first appearance) and a benched player's
score to `total_benched_points`; and in the concrete two-gameweek
scenario, player 7 (started gw1 scoring 5, benched gw2 scoring 3) ends
with `total_points = 5`, `total_benched_points = 3`. -/
theorem c6_player_totals_accumulate :
    (∀ (g : Nat → Option Int) (b : Nat → PlayerInfo) (acc : Record) (p : Pick),
      lookupStats (processPick g b acc p).total_player_stats p.element =
        some (match lookupStats acc.total_player_stats p.element with
          | some t =>
              if p.position ≤ 11 then
                { t with total_points := t.total_points + pickScore g p }
              else
                { t with total_benched_points :=
                    t.total_benched_points + pickScore g p }
          | none =>
              if p.position ≤ 11 then
                { first_name := (b p.element).first_name,
                  second_name := (b p.element).second_name,
                  total_points := pickScore g p, total_benched_points := 0 }
              else
                { first_name := (b p.element).first_name,
                  second_name := (b p.element).second_name,
                  total_points := 0, total_benched_points := pickScore g p })) ∧
    calculate_gw_stats 1 1 exEntries [⟨7, 3⟩, ⟨8, 12⟩] exScnInfo exScnScores1
      none = some exScnRecord1 ∧
    calculate_gw_stats 1 2 exEntries [⟨7, 12⟩, ⟨8, 1⟩] exScnInfo exScnScores2
      (some exScnRecord1) = some exScnRecord2 ∧
    lookupStats exScnRecord2.total_player_stats 7 =
      some { first_name := "F", second_name := "S",
             total_points := 5, total_benched_points := 3 } := by
  refine ⟨?_, rfl, rfl, by decide⟩
  intro g b acc p
  rw [processPick_total_player_stats]
  by_cases hpos : p.position ≤ 11
  · rw [if_pos hpos, lookupStats_addStarterPoints]
    cases h : lookupStats acc.total_player_stats p.element <;> simp [hpos]
  · rw [if_neg hpos, lookupStats_addBenchPoints]
    cases h : lookupStats acc.total_player_stats p.element <;> simp [hpos]

/-- C7: with pairwise-distinct cumulative points, the standings pass
assigns ranks that are exactly 1..N (each team ranked once) and the
rank-1 entry carries the maximum points.  `calculate_league_positions`
is run once on the `total_points` mapping (for `league_rank`) and once on
the `total_optimal_points` mapping (for `optimal_league_rank`). -/
theorem c7_ranks_are_one_to_n (teams : List (Nat × Int))
    (hdist : (teams.map (fun t => t.2)).Pairwise (· ≠ ·)) :
    (calculate_league_positions teams).map (fun x => x.2) =
      List.range' 1 teams.length ∧
    ((calculate_league_positions teams).map (fun x => x.1)).Perm
      (teams.map (fun t => t.1)) ∧
    (∀ x ∈ rank_assignment teams, x.2 = 1 → ∀ t ∈ teams, t.2 ≤ x.1.2) := by
  refine ⟨?_, ?_, rank_assignment_rank_one_max teams⟩
  · unfold calculate_league_positions
    rw [List.map_map]
    exact rank_assignment_snd teams
  · have h1 : (calculate_league_positions teams).map (fun x => x.1) =
        (sortBy (fun a b : Nat × Int => b.2 ≤ a.2) teams).map (fun t => t.1) := by
      unfold calculate_league_positions
      rw [List.map_map, ← rank_assignment_fst teams, List.map_map]
      rfl
    rw [h1]
    exact (perm_sortBy _ teams).map _

/-- Witness for C7 at a three-team league with distinct points. -/
theorem c7_witness :
    (calculate_league_positions [(10, 5), (20, 9), (30, 7)]).map
        (fun x => x.2) = List.range' 1 3 :=
  (c7_ranks_are_one_to_n [(10, 5), (20, 9), (30, 7)] (by decide)).1

/-- C8: the solver is order-independent: permuting the input list of
categorized players leaves `calculate_optimal_points` unchanged. -/
theorem c8_solver_order_independent (l1 l2 : List PlayerStat)
    (hcats : validCats l1) (hperm : l1.Perm l2) :
    calculate_optimal_points l1 = calculate_optimal_points l2 := by
  unfold calculate_optimal_points
  have hfp : ∀ f, formationPoints l1 f = formationPoints l2 f :=
    fun f => formationPoints_perm_eq l1 l2 hperm f
  have hbody : (fun (acc : Int) (f : List Nat) =>
      let formation_points := formationPoints l1 f
      if acc < formation_points then formation_points else acc) =
    (fun (acc : Int) (f : List Nat) =>
      let formation_points := formationPoints l2 f
      if acc < formation_points then formation_points else acc) := by
    funext acc f
    simp only [hfp]
  rw [hbody]

/-- Witness for C8: swapping a two-player list. -/
theorem c8_witness :
    calculate_optimal_points
        [⟨7, 1, "A", "B", 1, 4, false⟩, ⟨8, 2, "C", "D", 3, 6, false⟩] =
      calculate_optimal_points
        [⟨8, 2, "C", "D", 3, 6, false⟩, ⟨7, 1, "A", "B", 1, 4, false⟩] :=
  c8_solver_order_independent _ _ (by unfold validCats; decide) (List.Perm.swap _ _ _)

/-- C9: at `gw > 1` with the previous record absent, the builder produces
no record at all (the uncaught file error aborts before anything is
computed or written): it never substitutes guessed or zero priors. -/
theorem c9_missing_prev_is_fatal (tid gw : Nat)
    (entries : Nat → String × String) (picks : List Pick)
    (b : Nat → PlayerInfo) (g : Nat → Option Int) (hgw : gw > 1) :
    calculate_gw_stats tid gw entries picks b g none = none := by
  unfold calculate_gw_stats
  rw [if_pos hgw]

/-- Witness for C9 at gameweek 2. -/
theorem c9_witness :
    calculate_gw_stats 1 2 exEntries exPicks exInfo exScores none = none :=
  c9_missing_prev_is_fatal 1 2 exEntries exPicks exInfo exScores (by decide)

/-- C10: the solver's result is `max 0` of the best formation total —
hence non-negative even when every formation total is negative, because
the running maximum starts at 0 and is only replaced by strictly greater
totals. -/
theorem c10_result_clamped_nonneg (ps : List PlayerStat)
    (hcats : validCats ps) :
    0 ≤ calculate_optimal_points ps ∧
    calculate_optimal_points ps = max 0 (bestFormationTotal ps) := by
  refine ⟨?_, calculate_optimal_points_eq_max ps⟩
  rw [calculate_optimal_points_eq_max]
  exact le_max_left 0 _

/-- Witness for C10 at an all-negative single-goalkeeper squad. -/
theorem c10_witness :
    0 ≤ calculate_optimal_points [⟨9, 1, "E", "G", 1, -5, false⟩] ∧
    calculate_optimal_points [⟨9, 1, "E", "G", 1, -5, false⟩] =
      max 0 (bestFormationTotal [⟨9, 1, "E", "G", 1, -5, false⟩]) :=
  c10_result_clamped_nonneg _ (by unfold validCats; decide)

end VDL
